import Mathlib

/-!
Verification of the accelerator dispatch layer of the `advent-of-cuda`
repository: a shallow embedding of the host-side `add` driver (`src/add.rs`),
the day-08 GPU kernel (`gpu/src/day08.rs`), the day-08 host convergence loop
(`src/gpu_day08.rs`) and the CPU day-08 solver (`src/day08.rs`), together with
theorems settling the specification claims about them.

Machine integers are modelled as `Nat` with explicit reduction modulo `2^32`
where the source performs `u32` arithmetic.  Fallible operations (device traps,
`unwrap` panics) are modelled with `Option`.  Device-boundary side effects
(context initialization, module load, stream creation, allocation, launch,
synchronize, copy-back) are modelled as an explicit trace of `DeviceOp` events
emitted by each host function.  The per-thread kernel bodies are translated
statement by statement from the CUDA-side Rust sources; global-memory stores
performed by a thread are modelled as an explicit list of write events, which
are then applied to the output buffers (threads write disjoint slots, so the
fold order is immaterial).
-/

namespace AdventOfCuda

/-- The `u32` modulus: Rust `as u32` casts and `u32` arithmetic reduce mod this. -/
def U32 : Nat := 2 ^ 32

/-- Launch planner arithmetic from `src/add.rs:43` and `src/gpu_day08.rs:54`:
`let grid_size = (length as u32 + block_size - 1) / block_size;`.
`length as u32` truncates (`% U32`), the `u32` addition and subtraction wrap
(for `bs ≥ 1` the subtraction cannot underflow, so a single outer `% U32`
models the two's-complement result), and the division is `u32` division. -/
def grid_size (length bs : Nat) : Nat :=
  ((length % U32) + bs - 1) % U32 / bs

/-- Device-boundary operations performed by the host drivers, in program order:
`cust::quick_init()`, `Module::from_ptx`, `Stream::new`, `as_dbuf` allocations,
`launch!`, `stream.synchronize()`, and `copy_to` back to the host. -/
inductive DeviceOp
  | quickInit
  | moduleLoad
  | streamNew
  | alloc
  | launch
  | sync
  | copyToHost
deriving DecidableEq, Repr

/-! ## The `add` kernel and host driver (`gpu/src/add.rs`, `src/add.rs`)

The element type `α` abstracts the device `f32`: the kernel stores the result
of the device's addition operation, whatever that operation computes, so the
structural claims hold for any addition on the element type. -/

/-- One device thread of the `add` kernel (`gpu/src/add.rs:7-13`):
`if idx < a.len() { c[idx] = a[idx] + b[idx] }`.  Returns the output buffer
after this thread's store; `none` models a device trap (the only possible trap
is the checked read `b[idx]` when `b` is shorter than `a`, which the host's
length guard rules out). -/
def add_kernel {α : Type} [Add α] (a b : List α) (c : List α) (idx : Nat) :
    Option (List α) :=
  if h : idx < a.length then
    match b[idx]? with
    | some bv => some (c.set idx (a[idx] + bv))
    | none => none
  else
    some c

/-- Run device threads `0, 1, …, total - 1` over a shared output buffer.  The
threads of one launch write disjoint slots (each touches only its own index),
so sequential application in index order is a faithful model of the parallel
execution. -/
def run_threads {α : Type} (f : List α → Nat → Option (List α)) :
    List α → Nat → Option (List α)
  | c, 0 => some c
  | c, t + 1 =>
    match run_threads f c t with
    | some c' => f c' t
    | none => none

/-- The host `add` driver (`src/add.rs:6-71`).  `bs` is the block size returned
by the occupancy query `suggested_launch_configuration`.  Returns the host
result together with the trace of device operations: the length guard at
`src/add.rs:7-9` returns an error *before* any device work, otherwise the
driver initializes the device, loads the module, creates a stream, allocates
the three device buffers, launches `grid_size × bs` threads, synchronizes
(surfacing any device trap) and copies the output back. -/
def addOpsOk : List DeviceOp :=
  [DeviceOp.quickInit, DeviceOp.moduleLoad, DeviceOp.streamNew,
   DeviceOp.alloc, DeviceOp.alloc, DeviceOp.alloc,
   DeviceOp.launch, DeviceOp.sync, DeviceOp.copyToHost]

def addOpsFault : List DeviceOp :=
  [DeviceOp.quickInit, DeviceOp.moduleLoad, DeviceOp.streamNew,
   DeviceOp.alloc, DeviceOp.alloc, DeviceOp.alloc,
   DeviceOp.launch, DeviceOp.sync]

def add {α : Type} [Add α] [Zero α] (bs : Nat) (a b : List α) :
    Except String (List α) × List DeviceOp :=
  if a.length ≠ b.length then
    (Except.error "a and b must be the same length", [])
  else
    match run_threads (add_kernel a b) (List.replicate a.length (0 : α))
        (grid_size a.length bs * bs) with
    | some out2 => (Except.ok out2, addOpsOk)
    | none => (Except.error "device fault", addOpsFault)

/-! ## Launch planner lemmas -/

theorem grid_size_eq_of_no_overflow (n bs : Nat) (h1 : 1 ≤ bs)
    (h2 : n + bs - 1 < U32) : grid_size n bs = (n + bs - 1) / bs := by
  have hn : n < U32 := by omega
  unfold grid_size
  rw [Nat.mod_eq_of_lt hn, Nat.mod_eq_of_lt h2]

theorem grid_size_covers (n bs : Nat) (h1 : 1 ≤ bs) (h2 : n + bs - 1 < U32) :
    n ≤ grid_size n bs * bs := by
  rw [grid_size_eq_of_no_overflow n bs h1 h2, Nat.mul_comm]
  have hmod : (n + bs - 1) % bs < bs := Nat.mod_lt _ (by omega)
  have hdm := Nat.div_add_mod (n + bs - 1) bs
  generalize hgen : bs * ((n + bs - 1) / bs) = t at hdm ⊢
  omega

/-! ## Claim theorems for the launch planner and `add` -/

/-- C4 (amended): when the `u32` arithmetic does not overflow
(`n + bs - 1 < 2^32`) and the occupancy query returns a positive block size,
the launch planner computes `grid_size = (n + bs - 1) / bs = ⌈n / bs⌉` and the
produced configuration satisfies `grid_size * bs ≥ n` and `bs ≥ 1`.  (The
original unrestricted claim is refuted by `c4_counterexample`.) -/
theorem c4_launch_planner (n bs : Nat) (h1 : 1 ≤ bs)
    (h2 : n + bs - 1 < U32) :
    grid_size n bs = (n + bs - 1) / bs ∧ n ≤ grid_size n bs * bs ∧ 1 ≤ bs :=
  ⟨grid_size_eq_of_no_overflow n bs h1 h2, grid_size_covers n bs h1 h2, h1⟩

/-- C4 witness: a concrete in-range instance, `n = 10`, `bs = 4`. -/
theorem c4_launch_planner_witness :
    grid_size 10 4 = (10 + 4 - 1) / 4 ∧ 10 ≤ grid_size 10 4 * 4 ∧ 1 ≤ 4 :=
  c4_launch_planner 10 4 (by decide) (by norm_num [U32])

/-- C4 counterexample: for the problem size `n = 2^32` (with the typical
block size 1024) the `usize → u32` cast wraps to `0`, the computed grid is
`1023 / 1024 = 0`, and `grid_size * bs = 0 < n`: the claimed guarantee
`grid_size * block_size ≥ n` fails, so the claim is false for unrestricted
problem sizes. -/
theorem c4_counterexample :
    grid_size (2 ^ 32) 1024 * 1024 < 2 ^ 32 ∧ 1 ≤ 1024 := by
  constructor
  · norm_num [grid_size, U32]
  · decide

/-- C7: whenever the two input slices have different lengths, `add` returns the
length-mismatch error and the device-operation trace is empty: no device
initialization, allocation, transfer or launch is issued
(`src/add.rs:7-9` returns before `cust::quick_init()` at `src/add.rs:14`). -/
theorem c7_length_mismatch_fails_early {α : Type} [Add α] [Zero α]
    (bs : Nat) (a b : List α) (h : a.length ≠ b.length) :
    add bs a b = (Except.error "a and b must be the same length", []) := by
  unfold add
  rw [if_pos h]

/-- C7 witness: concrete mismatched lengths `[1]` vs `[2, 3]`. -/
theorem c7_length_mismatch_fails_early_witness :
    add 7 [(1 : Int)] [2, 3] =
      (Except.error "a and b must be the same length", []) :=
  c7_length_mismatch_fails_early 7 [(1 : Int)] [2, 3] (by decide)

/-! ## The day-08 graph-traversal kernel (`gpu/src/day08.rs`)

The kernel receives the adjacency table `graph`, the walkers' current nodes
`start`, the goal-node set `goals`, the direction sequence `directions`
(`true` = left, `false` = right), and raw output pointers `nodes` / `steps`.
Each thread keeps a private copy `items` of `start` (`start.to_vec()`),
iterates over the *whole* direction sequence, and on each iteration — when its
index passes the `idx < goals.len()` bound — advances its own walker by one
step, inserts the new node into `items` at position `idx` (`Vec::insert`,
which shifts the tail), and stores the new node into `nodes[idx]` and the
constant `1` into `steps[idx]`.  The loop breaks early only for the first
thread of the grid (`thread::first()`), and only when that thread's freshly
computed node is a goal (or when its index failed the bound check, which
leaves `found` at `true`). -/

/-- The two global output buffers the kernel stores into. -/
inductive Buf
  | nodes
  | steps
deriving DecidableEq, Repr

/-- A global-memory store event: buffer, slot index, stored value. -/
abbrev Write := Buf × Nat × Nat

/-- The per-thread loop of `graph_traversal` (`gpu/src/day08.rs:19-45`) for the
thread with linear index `idx`, given `nodesLen = goals.len()` and the thread's
private `items` vector.  Returns the ordered list of this thread's
global-memory stores, or `none` if the thread traps on a checked index
(`items[idx]` or `graph[node as usize]` out of bounds). -/
def threadLoop (graph : List (Nat × Nat)) (goals : List Nat) (nodesLen : Nat)
    (idx : Nat) : List Bool → List Nat → Option (List Write)
  | [], _ => some []
  | d :: rest, items =>
    if idx < nodesLen then
      match items[idx]? with
      | none => none
      | some node0 =>
        match graph[node0]? with
        | none => none
        | some p =>
          let node := if d then p.1 else p.2
          let found := goals.contains node
          let ws : List Write := [(Buf.nodes, idx, node), (Buf.steps, idx, 1)]
          if found ∧ idx = 0 then some ws
          else
            match threadLoop graph goals nodesLen idx rest
                (items.insertIdx idx node) with
            | none => none
            | some rest' => some (ws ++ rest')
    else
      if idx = 0 then some []
      else threadLoop graph goals nodesLen idx rest items

/-- One full thread of the `graph_traversal` kernel: the bound used inside the
kernel is `goals.len()` (`gpu/src/day08.rs:17`) and the initial private vector
is a copy of `start` (`gpu/src/day08.rs:18`). -/
def threadWrites (graph : List (Nat × Nat)) (start goals : List Nat)
    (directions : List Bool) (idx : Nat) : Option (List Write) :=
  threadLoop graph goals goals.length idx directions start

/-- Run all `total` threads of a launch, concatenating their store events in
thread order (each thread stores only to its own slot `idx`, so the order
across threads is immaterial); `none` if any thread traps, in which case the
host's `stream.synchronize()` reports the fault. -/
def runTraversalThreads (graph : List (Nat × Nat)) (start goals : List Nat)
    (directions : List Bool) : Nat → Option (List Write)
  | 0 => some []
  | t + 1 =>
    match runTraversalThreads graph start goals directions t,
        threadWrites graph start goals directions t with
    | some ws, some wt => some (ws ++ wt)
    | _, _ => none

/-- Apply a list of store events to one output buffer (last store to a slot
wins; a store beyond the buffer's length leaves it unchanged — such a store
never occurs, because a thread that would make one traps first). -/
def applyWrites (init : List Nat) (ws : List Write) (b : Buf) : List Nat :=
  ws.foldl (fun acc w => if w.1 = b then acc.set w.2.1 w.2.2 else acc) init

/-- The host `graph_traversal` driver (`src/gpu_day08.rs:8-88`).  `bs` is the
block size returned by the occupancy query.  The driver initializes the
device, loads the module, creates a stream, allocates the four input and two
output buffers, launches `grid_size(start.len()) × bs` threads over output
buffers initialized to zero (`vec![0u32; length]`, `vec![0u64; length]`),
synchronizes, and copies both outputs back. -/
def dispatchOpsFault : List DeviceOp :=
  [DeviceOp.quickInit, DeviceOp.moduleLoad, DeviceOp.streamNew,
   DeviceOp.alloc, DeviceOp.alloc, DeviceOp.alloc, DeviceOp.alloc,
   DeviceOp.alloc, DeviceOp.alloc, DeviceOp.launch, DeviceOp.sync]

def dispatchOpsOk : List DeviceOp :=
  [DeviceOp.quickInit, DeviceOp.moduleLoad, DeviceOp.streamNew,
   DeviceOp.alloc, DeviceOp.alloc, DeviceOp.alloc, DeviceOp.alloc,
   DeviceOp.alloc, DeviceOp.alloc, DeviceOp.launch, DeviceOp.sync,
   DeviceOp.copyToHost, DeviceOp.copyToHost]

def graph_traversal (bs : Nat) (graph : List (Nat × Nat))
    (start goals : List Nat) (directions : List Bool) :
    Option (List Nat × List Nat) × List DeviceOp :=
  match runTraversalThreads graph start goals directions
      (grid_size start.length bs * bs) with
  | none => (none, dispatchOpsFault)
  | some ws =>
    (some (applyWrites (List.replicate start.length 0) ws Buf.nodes,
           applyWrites (List.replicate start.length 0) ws Buf.steps),
      dispatchOpsOk)

/-- Outcome of the host convergence loop. -/
inductive GpuOutcome
  | converged (steps : Nat)
  | fault
  | outOfFuel
deriving DecidableEq, Repr

/-- The convergence loop of `gpu_day08::solve_part_2`
(`src/gpu_day08.rs:207-221`): dispatch `graph_traversal`, add
`steps_run.len()` to the running total, stop when every returned node is in
`goals`, otherwise feed the returned nodes back as the next iteration's
walker positions.  The source loop has no iteration bound; `fuel` bounds the
number of iterations we observe (`outOfFuel` means the loop was still running
after `fuel` iterations).  The second component is the accumulated trace of
device operations. -/
def solvePart2Loop (bs : Nat) (graph : List (Nat × Nat)) (goals : List Nat)
    (directions : List Bool) : Nat → List Nat → Nat → GpuOutcome × List DeviceOp
  | 0, _, _ => (GpuOutcome.outOfFuel, [])
  | fuel + 1, start, steps =>
    match graph_traversal bs graph start goals directions with
    | (none, ops) => (GpuOutcome.fault, ops)
    | (some (nodes, steps_run), ops) =>
      let steps' := steps + steps_run.length
      if nodes.all (fun node => goals.contains node) then
        (GpuOutcome.converged steps', ops)
      else
        match solvePart2Loop bs graph goals directions fuel nodes steps' with
        | (out, ops') => (out, ops ++ ops')

/-! ## Reference lock-step traversal

The mathematical traversal the spec describes: every walker advances one
direction step per global step, the direction at global step `s` (0-based)
being `directions[s % directions.len()]`. -/

/-- Node reached after `s` lock-step steps from `node0` (left successor for
`true`, right for `false`); a node missing from the adjacency table stays put
(never exercised on the inputs we evaluate). -/
def walkPos (graph : List (Nat × Nat)) (directions : List Bool) (node0 : Nat) :
    Nat → Nat
  | 0 => node0
  | s + 1 =>
    let node := walkPos graph directions node0 s
    match graph[node]? with
    | none => node
    | some p => if directions.getD (s % directions.length) true then p.1 else p.2

/-- Whether, after `s` lock-step steps, every walker of `start` sits on a node
of `goals`. -/
def allAtGoals (graph : List (Nat × Nat)) (directions : List Bool)
    (goals start : List Nat) (s : Nat) : Bool :=
  start.all (fun node0 => goals.contains (walkPos graph directions node0 s))

/-- What one kernel dispatch actually does to a single walker (the reference
form of the per-thread loop of `gpu/src/day08.rs:19-45`): walk through the
whole direction sequence one step per direction; when `brk` is set (the
thread is `thread::first()`, i.e. index 0), stop as soon as a step lands on a
goal node.  `none` models the trap on a node missing from the adjacency
table. -/
def followKernel (graph : List (Nat × Nat)) (goals : List Nat) (brk : Bool) :
    List Bool → Nat → Option Nat
  | [], node => some node
  | d :: rest, node =>
    match graph[node]? with
    | none => none
    | some p =>
      let node' := if d then p.1 else p.2
      if brk && goals.contains node' then some node'
      else followKernel graph goals brk rest node'

/-- The value of the last store a thread made to the `nodes` buffer, if any. -/
def lastNodesWrite (ws : List Write) : Option Nat :=
  ws.foldl (fun acc w => if w.1 = Buf.nodes then some w.2.2 else acc) none

/-! ## The day-08 host solvers

`gpu_day08::solve_part_2` (`src/gpu_day08.rs:146-222`) and
`day08::solve_part_2` (`src/day08.rs:304-348`) both start from the parse
result of `parse_directions_and_instructions`: a direction list and a
`BTreeMap` from 3-character labels to successor label pairs.  We model the
map by its iteration form — the key-sorted association list
`net : List (Label × Label × Label)` of `(key, left, right)` entries — which
both solvers consume. -/

/-- `day08::Direction`. -/
inductive Dir
  | Left
  | Right
deriving DecidableEq, Repr

/-- A 3-character node label (`[char; 3]`). -/
abbrev Label := Char × Char × Char

/-- Strict lexicographic order on labels (the `BTreeMap` key order). -/
def labelLt (a b : Label) : Bool :=
  if a.1 < b.1 then true
  else if b.1 < a.1 then false
  else if a.2.1 < b.2.1 then true
  else if b.2.1 < a.2.1 then false
  else a.2.2 < b.2.2

/-- The map keys in iteration order (`instructions.keys()`). -/
def labelKeys (net : List (Label × Label × Label)) : List Label :=
  net.map (fun e => e.1)

/-- `instruction_keys_map.get(&label)`: the index a label was enumerated with
(`src/gpu_day08.rs:151-157`); `none` models the `.unwrap()` panic for a label
that is not a key of the map. -/
def keyIndex (keys : List Label) (l : Label) : Option Nat :=
  keys.findIdx? (fun k => k = l)

/-- The adjacency table built at `src/gpu_day08.rs:159-168`: for each entry in
map order, the pair of indices of its left and right successor labels. -/
def gpuGraph (net : List (Label × Label × Label)) : Option (List (Nat × Nat)) :=
  net.mapM (fun e => do
    let lft ← keyIndex (labelKeys net) e.2.1
    let rgt ← keyIndex (labelKeys net) e.2.2
    pure (lft, rgt))

/-- The goal indices (`src/gpu_day08.rs:170-182`): positions of keys whose
third character is `Z`. -/
def gpuGoals (net : List (Label × Label × Label)) : List Nat :=
  (labelKeys net).enum.filterMap
    (fun il => if il.2.2.2 = 'Z' then some il.1 else none)

/-- The starting walker indices (`src/gpu_day08.rs:193-205`): positions of keys
whose third character is `A`. -/
def gpuStart (net : List (Label × Label × Label)) : List Nat :=
  (labelKeys net).enum.filterMap
    (fun il => if il.2.2.2 = 'A' then some il.1 else none)

/-- `Direction` to kernel boolean (`src/gpu_day08.rs:184-191`): left ↦ `true`. -/
def dirBool (d : Dir) : Bool :=
  match d with
  | Dir.Left => true
  | Dir.Right => false

/-- `gpu_day08::solve_part_2` after parsing (`src/gpu_day08.rs:146-222`):
build the index-level graph, goals, direction booleans and walker set, then
run the convergence loop starting from step total `0`. -/
def gpu_solve_part_2 (bs : Nat) (directions : List Dir)
    (net : List (Label × Label × Label)) (fuel : Nat) :
    GpuOutcome × List DeviceOp :=
  match gpuGraph net with
  | none => (GpuOutcome.fault, [])
  | some graph =>
    solvePart2Loop bs graph (gpuGoals net) (directions.map dirBool) fuel
      (gpuStart net) 0

/-- `day08::gcd` (`src/day08.rs:144-150`): Euclid's algorithm,
`if b == 0 { a } else { gcd(b, a % b) }`. -/
def gcdSrc (a b : Nat) : Nat :=
  if _h : b = 0 then a else gcdSrc b (a % b)
termination_by b
decreasing_by exact Nat.mod_lt _ (Nat.pos_of_ne_zero _h)

/-- `day08::gcd` computes the mathematical greatest common divisor. -/
theorem gcdSrc_eq (a b : Nat) : gcdSrc a b = Nat.gcd a b := by
  induction b using Nat.strong_induction_on generalizing a with
  | _ b ih =>
    unfold gcdSrc
    split
    · rename_i hb
      subst hb
      exact (Nat.gcd_zero_right a).symm
    · rename_i hb
      rw [ih (a % b) (Nat.mod_lt _ (Nat.pos_of_ne_zero hb))]
      rw [Nat.gcd_comm b (a % b), ← Nat.gcd_rec b a, Nat.gcd_comm]

/-- `day08::lcm` (`src/day08.rs:152-156`): `(a * b) / gcd(a, b)`. -/
def lcmSrc (a b : Nat) : Nat :=
  a * b / gcdSrc a b

/-- `day08::calculate_lcm` (`src/day08.rs:158-161`):
`cycle_lengths.iter().fold(1, |a, b| lcm(a, *b))`. -/
def calculate_lcm (xs : List Nat) : Nat :=
  xs.foldl (fun a b => lcmSrc a b) 1

/-- `InstructionMap::get` (`src/day08.rs:31-50`): the successor pair of a
label; `none` models the `.unwrap()` panic on a missing label. -/
def cpuLookup (net : List (Label × Label × Label)) (l : Label) :
    Option (Label × Label) :=
  (net.find? (fun e => e.1 = l)).map (fun e => (e.2.1, e.2.2))

/-- Direction selection of the CPU solver (`src/day08.rs:318-327`):
`if steps >= directions.len() { directions[steps % directions.len()] }
else { directions[steps] }` (for an empty direction list the source panics on
`% 0`; modelled as `none`). -/
def dirAt (directions : List Dir) (steps : Nat) : Option Dir :=
  if directions.length ≤ steps then directions[steps % directions.length]?
  else directions[steps]?

/-- `cycle_lengths.insert(label, v)`: `BTreeMap` insertion into the key-sorted
association list, replacing the value of an existing key. -/
def insertCycle : List (Label × Nat) → Label → Nat → List (Label × Nat)
  | [], l, v => [(l, v)]
  | (k, w) :: rest, l, v =>
    if l = k then (k, v) :: rest
    else if labelLt l k then (l, v) :: (k, w) :: rest
    else (k, w) :: insertCycle rest l v

/-- The inner `for` of the CPU solver (`src/day08.rs:331-344`): advance every
walker by the chosen direction in order, recording `steps'` (the step count
*after* this round) under the label of every walker that lands on a `..Z`
node.  `none` models the `.unwrap()` panic on a label missing from the map. -/
def cpuAdvance (net : List (Label × Label × Label)) (d : Dir) (steps' : Nat) :
    List Label → List (Label × Nat) → Option (List Label × List (Label × Nat))
  | [], cycles => some ([], cycles)
  | l :: rest, cycles =>
    match cpuLookup net l with
    | none => none
    | some lr =>
      let next := match d with
        | Dir.Left => lr.1
        | Dir.Right => lr.2
      let cycles' := if next.2.2 = 'Z' then insertCycle cycles next steps'
        else cycles
      match cpuAdvance net d steps' rest cycles' with
      | none => none
      | some rc => some (next :: rc.1, rc.2)

/-- The CPU solver's `while` loop (`src/day08.rs:316-345`): loop until the
cycle-length map has one entry per walker; `fuel` bounds the iterations we
observe (the source loop is unbounded). -/
def cpuLoop (directions : List Dir) (net : List (Label × Label × Label)) :
    Nat → List Label → Nat → List (Label × Nat) → Option (List (Label × Nat))
  | 0, _, _, _ => none
  | fuel + 1, current, steps, cycles =>
    if cycles.length = current.length then some cycles
    else
      match dirAt directions steps with
      | none => none
      | some d =>
        match cpuAdvance net d (steps + 1) current cycles with
        | none => none
        | some rc => cpuLoop directions net fuel rc.1 (steps + 1) rc.2

/-- The starting walkers of the CPU solver (`src/day08.rs:308-313`): map keys
whose third character is `A`, in map order. -/
def cpuStart (net : List (Label × Label × Label)) : List Label :=
  (labelKeys net).filter (fun l => l.2.2 = 'A')

/-- `day08::solve_part_2` after parsing (`src/day08.rs:304-348`): run the
cycle-detection loop from step `0` with an empty cycle map, then return the
least common multiple of the recorded cycle lengths. -/
def cpu_solve_part_2 (directions : List Dir)
    (net : List (Label × Label × Label)) (fuel : Nat) : Option Nat :=
  match cpuLoop directions net fuel (cpuStart net) 0 [] with
  | none => none
  | some cycles => some (calculate_lcm (cycles.map (fun c => c.2)))

/-! ## Concrete inputs used by counterexamples and failing-input evaluations

A three-node network with a single walker: `AAA = (BBB, BBB)`,
`BBB = (ZZZ, ZZZ)`, `ZZZ = (ZZZ, ZZZ)` with direction sequence `LL`.  The one
walker `AAA` needs exactly 2 steps to first reach the goal `ZZZ`.  At index
level (keys sorted `AAA < BBB < ZZZ`): graph `[(1,1),(2,2),(2,2)]`, walker set
`[0]`, goals `[2]`, directions `[true, true]`. -/

def exGraph : List (Nat × Nat) := [(1, 1), (2, 2), (2, 2)]

def exStart : List Nat := [0]

def exGoals : List Nat := [2]

def exNet : List (Label × Label × Label) :=
  [(('A', 'A', 'A'), ('B', 'B', 'B'), ('B', 'B', 'B')),
   (('B', 'B', 'B'), ('Z', 'Z', 'Z'), ('Z', 'Z', 'Z')),
   (('Z', 'Z', 'Z'), ('Z', 'Z', 'Z'), ('Z', 'Z', 'Z'))]

/-! ## Claim theorems for the convergence loop -/

/-- C2: evaluation of the convergence loop at a failing input.  On the network
above, the least global step count at which all walkers are simultaneously on
goal nodes is `2` (`allAtGoals` is false after 0 and 1 steps and true after
2), yet the driver loop returns `1`: the kernel advanced the walker through
both directions of the sequence within the single dispatch, and the host
added `steps_run.len()` — the walker count, 1 — to its step total.  The code
therefore does not return the least simultaneous-goal step count its own
documentation and test describe. -/
theorem c2_gpu_loop_wrong_step_count :
    (solvePart2Loop 1 exGraph exGoals [true, true] 10 exStart 0).1
        = GpuOutcome.converged 1 ∧
      allAtGoals exGraph [true, true] exGoals exStart 2 = true ∧
      allAtGoals exGraph [true, true] exGoals exStart 1 = false ∧
      allAtGoals exGraph [true, true] exGoals exStart 0 = false := by
  decide

/-- C3: the CPU solver and the GPU solver disagree on the network above
(both terminate): the CPU cycle-length/LCM solver returns the true answer
`2`, the GPU convergence loop returns `1`. -/
theorem c3_cpu_gpu_disagree :
    cpu_solve_part_2 [Dir.Left, Dir.Left] exNet 10 = some 2 ∧
      (gpu_solve_part_2 1 [Dir.Left, Dir.Left] exNet 10).1
        = GpuOutcome.converged 1 ∧
      (2 : Nat) ≠ 1 := by
  refine ⟨?_, by decide, by decide⟩
  have hloop : cpuLoop [Dir.Left, Dir.Left] exNet 10 (cpuStart exNet) 0 []
      = some [((('Z', 'Z', 'Z') : Label), 2)] := by decide
  unfold cpu_solve_part_2
  rw [hloop]
  simp [calculate_lcm, lcmSrc, gcdSrc_eq]

theorem grid_size_zero (bs : Nat) (h1 : 1 ≤ bs) (h2 : bs ≤ U32) :
    grid_size 0 bs = 0 := by
  have hU : 0 < U32 := by norm_num [U32]
  unfold grid_size
  rw [Nat.zero_mod, Nat.zero_add, Nat.mod_eq_of_lt (by omega)]
  exact Nat.div_eq_of_lt (by omega)

theorem graph_traversal_empty (bs : Nat) (graph : List (Nat × Nat))
    (goals : List Nat) (dirs : List Bool) (h1 : 1 ≤ bs) (h2 : bs ≤ U32) :
    graph_traversal bs graph [] goals dirs = (some ([], []), dispatchOpsOk) := by
  unfold graph_traversal
  rw [show (List.length ([] : List Nat)) = 0 from rfl, grid_size_zero bs h1 h2,
    Nat.zero_mul]
  rfl

/-- C5 (amended): on an empty walker set the convergence loop converges with
step count zero — but only after issuing exactly one kernel dispatch: the
loop body runs once, launching a grid of `grid_size(0) * bs = 0` threads,
before the (vacuously true) all-on-goals check breaks out.  (The original
"issues no kernel launch" is refuted by `c5_counterexample`.  The embedding
lets the zero-block launch run zero threads; a real device would reject the
zero grid and the run would fail — under either semantics a launch *is*
issued, which is what the correction is about.) -/
theorem c5_empty_walker_set (bs : Nat) (graph : List (Nat × Nat))
    (goals : List Nat) (dirs : List Bool) (fuel : Nat)
    (h1 : 1 ≤ bs) (h2 : bs ≤ U32) :
    (solvePart2Loop bs graph goals dirs (fuel + 1) [] 0).1
        = GpuOutcome.converged 0 ∧
      (solvePart2Loop bs graph goals dirs (fuel + 1) [] 0).2.count
        DeviceOp.launch = 1 := by
  have h := graph_traversal_empty bs graph goals dirs h1 h2
  unfold solvePart2Loop
  rw [h]
  exact ⟨rfl, rfl⟩

/-- C5 witness: a concrete empty-walker run. -/
theorem c5_empty_walker_set_witness :
    (solvePart2Loop 1024 [] [] [] 1 [] 0).1 = GpuOutcome.converged 0 ∧
      (solvePart2Loop 1024 [] [] [] 1 [] 0).2.count DeviceOp.launch = 1 :=
  c5_empty_walker_set 1024 [] [] [] 0 (by decide) (by norm_num [U32])

/-- C5 counterexample: with an empty walker set the loop still issues one
kernel launch (`launch!` is called unconditionally inside `graph_traversal`,
which the loop body always calls before its convergence check), refuting
"issues no kernel launch". -/
theorem c5_counterexample :
    (solvePart2Loop 1 [] [] [] 1 [] 0).2.count DeviceOp.launch = 1 ∧
      (1 : Nat) ≠ 0 := by
  decide

/-- C9 (amended): device initialization, module loading and stream creation
happen once per `graph_traversal` *call* — not once per process — and each
call's single kernel launch goes to that call's own fresh stream.  A
convergence-loop run therefore re-initializes the device on every iteration
(`c9_counterexample` shows a 2-iteration run with 2 initializations). -/
theorem c9_session_per_dispatch (bs : Nat) (graph : List (Nat × Nat))
    (start goals : List Nat) (dirs : List Bool) :
    (graph_traversal bs graph start goals dirs).2.count DeviceOp.quickInit = 1 ∧
      (graph_traversal bs graph start goals dirs).2.count
        DeviceOp.moduleLoad = 1 ∧
      (graph_traversal bs graph start goals dirs).2.count
        DeviceOp.streamNew = 1 ∧
      (graph_traversal bs graph start goals dirs).2.count DeviceOp.launch = 1 := by
  unfold graph_traversal
  split <;> exact ⟨rfl, rfl, rfl, rfl⟩

/-- C9 counterexample: a run of the convergence loop that needs two iterations
performs two device initializations, refuting "exactly once per process". -/
theorem c9_counterexample :
    (solvePart2Loop 1 exGraph exGoals [true] 10 exStart 0).2.count
        DeviceOp.quickInit = 2 ∧
      (2 : Nat) ≠ 1 := by
  decide

/-! ## Per-thread store discipline -/

/-- A thread whose index fails the kernel's own `idx < nodes_len` bound never
stores anything (the guard body is skipped on every loop iteration). -/
theorem threadLoop_no_writes_of_ge (graph : List (Nat × Nat)) (goals : List Nat)
    (nodesLen idx : Nat) (h : nodesLen ≤ idx) :
    ∀ (dirs : List Bool) (items : List Nat) (ws : List Write),
      threadLoop graph goals nodesLen idx dirs items = some ws → ws = [] := by
  intro dirs
  induction dirs with
  | nil =>
    intro items ws hw
    exact (Option.some.inj hw).symm
  | cons d rest ih =>
    intro items ws hw
    unfold threadLoop at hw
    rw [if_neg (by omega)] at hw
    by_cases h0 : idx = 0
    · rw [if_pos h0] at hw
      exact (Option.some.inj hw).symm
    · rw [if_neg h0] at hw
      exact ih items ws hw

/-- C6: in both kernels, a thread whose linear index is at or beyond the
logical problem size performs no device-memory store.  For the `add` kernel
the in-kernel guard is `idx < a.len()`, so such a thread leaves the output
buffer untouched.  For the `graph_traversal` kernel the in-kernel bound is
`idx < goals.len()`: a thread at or beyond the walker count either fails that
bound (when `idx ≥ goals.len()`) and skips the guarded body, or passes it but
traps on the checked read `items[idx]` — the first statement of the guarded
body, before any store — so in every case its store list is empty. -/
theorem c6_no_write_beyond_problem_size :
    (∀ (α : Type) [Add α] (a b c : List α) (idx : Nat),
        a.length ≤ idx → add_kernel a b c idx = some c) ∧
      (∀ (graph : List (Nat × Nat)) (start goals : List Nat)
          (dirs : List Bool) (idx : Nat), start.length ≤ idx →
        (threadWrites graph start goals dirs idx).getD [] = []) := by
  constructor
  · intro α _ a b c idx h
    unfold add_kernel
    rw [dif_neg (by omega)]
  · intro graph start goals dirs idx h
    by_cases hg : goals.length ≤ idx
    · cases hw : threadWrites graph start goals dirs idx with
      | none => rfl
      | some ws =>
        rw [Option.getD_some]
        exact threadLoop_no_writes_of_ge graph goals goals.length idx hg
          dirs start ws hw
    · cases dirs with
      | nil => rfl
      | cons d rest =>
        unfold threadWrites threadLoop
        rw [if_pos (by omega), List.getElem?_eq_none h]
        rfl

/-- C6 witness: thread 5 on a 1-element `add` problem stores nothing; thread 3
of a 1-walker traversal problem stores nothing. -/
theorem c6_no_write_beyond_problem_size_witness :
    add_kernel [(1 : Int)] [2] [0] 5 = some [0] ∧
      (threadWrites [(1, 1)] [0] [0] [true] 3).getD [] = [] :=
  ⟨c6_no_write_beyond_problem_size.1 Int [1] [2] [0] 5 (by decide),
   c6_no_write_beyond_problem_size.2 [(1, 1)] [0] [0] [true] 3 (by decide)⟩

/-- Every store a thread makes to the `steps` buffer stores the constant `1`
(the kernel executes `*elem = 1;`, `gpu/src/day08.rs:38-39`). -/
theorem threadLoop_steps_writes_one (graph : List (Nat × Nat)) (goals : List Nat)
    (nodesLen idx : Nat) :
    ∀ (dirs : List Bool) (items : List Nat) (ws : List Write),
      threadLoop graph goals nodesLen idx dirs items = some ws →
      ∀ w ∈ ws, w.1 = Buf.steps → w.2.2 = 1 := by
  intro dirs
  induction dirs with
  | nil =>
    intro items ws hw
    cases Option.some.inj hw
    intro w hww
    simp at hww
  | cons d rest ih =>
    intro items ws hw
    unfold threadLoop at hw
    by_cases hguard : idx < nodesLen
    · rw [if_pos hguard] at hw
      cases hitems : items[idx]? with
      | none => simp [hitems] at hw
      | some node0 =>
        cases hgraph : graph[node0]? with
        | none => simp [hitems, hgraph] at hw
        | some p =>
          simp only [hitems, hgraph] at hw
          generalize hnd : (if d = true then p.1 else p.2) = node at hw
          split at hw
          · cases Option.some.inj hw
            intro w hww hsteps
            rcases (by simpa using hww :
                w = (Buf.nodes, idx, node) ∨ w = (Buf.steps, idx, 1)) with rfl | rfl
            · simp at hsteps
            · rfl
          · split at hw
            · exact Option.noConfusion hw
            · rename_i rest' hrec
              cases Option.some.inj hw
              intro w hww hsteps
              rcases List.mem_append.mp hww with hmem | hmem
              · rcases (by simpa using hmem :
                    w = (Buf.nodes, idx, node) ∨ w = (Buf.steps, idx, 1)) with rfl | rfl
                · simp at hsteps
                · rfl
              · exact ih _ rest' hrec w hmem hsteps
    · rw [if_neg hguard] at hw
      by_cases h0 : idx = 0
      · rw [if_pos h0] at hw
        cases Option.some.inj hw
        intro w hww
        simp at hww
      · rw [if_neg h0] at hw
        exact ih items ws hw

/-- The constant-`1` property of `steps` stores holds across all threads of a
launch. -/
theorem runTraversalThreads_steps_writes_one (graph : List (Nat × Nat))
    (start goals : List Nat) (dirs : List Bool) :
    ∀ (total : Nat) (ws : List Write),
      runTraversalThreads graph start goals dirs total = some ws →
      ∀ w ∈ ws, w.1 = Buf.steps → w.2.2 = 1 := by
  intro total
  induction total with
  | zero =>
    intro ws hw
    cases Option.some.inj hw
    intro w hww
    simp at hww
  | succ t ih =>
    intro ws hw
    unfold runTraversalThreads at hw
    cases hprev : runTraversalThreads graph start goals dirs t with
    | none => simp [hprev] at hw
    | some ws0 =>
      cases hthread : threadWrites graph start goals dirs t with
      | none => simp [hprev, hthread] at hw
      | some wt =>
        simp only [hprev, hthread] at hw
        cases Option.some.inj hw
        intro w hww hsteps
        rcases List.mem_append.mp hww with hmem | hmem
        · exact ih ws0 hprev w hmem hsteps
        · exact threadLoop_steps_writes_one graph goals goals.length t dirs
            start wt hthread w hmem hsteps

/-- Applying stores never changes a buffer's length. -/
theorem length_applyWrites (b : Buf) :
    ∀ (ws : List Write) (init : List Nat),
      (applyWrites init ws b).length = init.length := by
  intro ws
  induction ws with
  | nil => intro init; rfl
  | cons w rest ih =>
    intro init
    rw [applyWrites, List.foldl_cons]
    rw [show (List.foldl
        (fun acc w => if w.1 = b then acc.set w.2.1 w.2.2 else acc)
        (if w.1 = b then init.set w.2.1 w.2.2 else init) rest)
      = applyWrites (if w.1 = b then init.set w.2.1 w.2.2 else init) rest b
      from rfl]
    rw [ih]
    split <;> simp

/-- A predicate preserved by the initial buffer contents and by every relevant
store value survives `applyWrites`. -/
theorem applyWrites_values (b : Buf) (P : Nat → Prop) :
    ∀ (ws : List Write) (init : List Nat), (∀ x ∈ init, P x) →
      (∀ w ∈ ws, w.1 = b → P w.2.2) →
      ∀ x ∈ applyWrites init ws b, P x := by
  intro ws
  induction ws with
  | nil => exact fun init hinit _ x hx => hinit x hx
  | cons w rest ih =>
    intro init hinit hws x hx
    rw [applyWrites, List.foldl_cons] at hx
    refine ih (if w.1 = b then init.set w.2.1 w.2.2 else init) ?_
      (fun w' h hb => hws w' (List.mem_cons_of_mem _ h) hb) x hx
    split
    · intro y hy
      rcases List.mem_or_eq_of_mem_set hy with h | rfl
      · exact hinit y h
      · exact hws w (List.mem_cons_self _ _) (by assumption)
    · exact hinit

/-- One-step unfolding of the convergence loop. -/
theorem solvePart2Loop_succ (bs : Nat) (graph : List (Nat × Nat))
    (goals : List Nat) (dirs : List Bool) (fuel : Nat) (start : List Nat)
    (acc : Nat) :
    solvePart2Loop bs graph goals dirs (fuel + 1) start acc
      = match graph_traversal bs graph start goals dirs with
        | (none, ops) => (GpuOutcome.fault, ops)
        | (some (nodes, steps_run), ops) =>
          if nodes.all (fun node => goals.contains node) then
            (GpuOutcome.converged (acc + steps_run.length), ops)
          else
            match solvePart2Loop bs graph goals dirs fuel nodes
                (acc + steps_run.length) with
            | (out, ops') => (out, ops ++ ops') :=
  rfl

/-- C10: when `graph_traversal` returns on a walker set of size `n > 0`, the
per-walker step-count vector has length `n` and every entry is `0` or `1`
(the kernel stores only the constant `1`; slots of threads that never pass
the bound keep their initial `0`), and one iteration of the host convergence
loop adds exactly `n = steps_run.len()` to its running step total. -/
theorem c10_steps_vector (bs : Nat) (graph : List (Nat × Nat))
    (start goals : List Nat) (dirs : List Bool) (nodes steps_run : List Nat)
    (_hn : 0 < start.length)
    (h : (graph_traversal bs graph start goals dirs).1 = some (nodes, steps_run)) :
    steps_run.length = start.length ∧
      (∀ x ∈ steps_run, x = 0 ∨ x = 1) ∧
      ∀ (fuel acc : Nat),
        (solvePart2Loop bs graph goals dirs (fuel + 1) start acc).1
          = if nodes.all (fun node => goals.contains node) then
              GpuOutcome.converged (acc + start.length)
            else
              (solvePart2Loop bs graph goals dirs fuel nodes
                (acc + start.length)).1 := by
  unfold graph_traversal at h
  cases hrun : runTraversalThreads graph start goals dirs
      (grid_size start.length bs * bs) with
  | none =>
    rw [hrun] at h
    exact absurd h (by simp)
  | some ws =>
    rw [hrun] at h
    injection Option.some.inj h with hX hY
    have hgt : graph_traversal bs graph start goals dirs
        = (some (nodes, steps_run), dispatchOpsOk) := by
      unfold graph_traversal
      simp only [hrun]
      rw [hX, hY]
    have hlen : steps_run.length = start.length := by
      rw [← hY]
      exact (length_applyWrites _ _ _).trans (List.length_replicate _ _)
    refine ⟨hlen, ?_, ?_⟩
    · rw [← hY]
      refine applyWrites_values Buf.steps (fun x => x = 0 ∨ x = 1) ws _ ?_ ?_
      · intro x hx
        exact Or.inl (List.eq_of_mem_replicate hx)
      · intro w hww hb
        exact Or.inr
          (runTraversalThreads_steps_writes_one graph start goals dirs _ ws
            hrun w hww hb)
    · intro fuel acc
      rw [solvePart2Loop_succ, hgt]
      dsimp only
      by_cases hc : (nodes.all fun node => goals.contains node) = true
      · rw [if_pos hc, if_pos hc, hlen]
      · rw [if_neg hc, if_neg hc, hlen]

/-- C10 witness: a concrete successful dispatch with one walker, and the
loop-unfolding equation at `fuel = 0`, `acc = 0`. -/
theorem c10_steps_vector_witness :
    (solvePart2Loop 1 exGraph exGoals [true] 1 exStart 0).1
      = if ([1] : List Nat).all (fun node => exGoals.contains node) then
          GpuOutcome.converged (0 + exStart.length)
        else (solvePart2Loop 1 exGraph exGoals [true] 0 [1]
          (0 + exStart.length)).1 :=
  (c10_steps_vector 1 exGraph exStart exGoals [true] [1] [1] (by decide)
    (by decide)).2.2 0 0

theorem lastNodesWrite_foldl (ws : List Write) (acc : Option Nat) :
    ws.foldl (fun a w => if w.1 = Buf.nodes then some w.2.2 else a) acc
      = (lastNodesWrite ws).or acc := by
  induction ws generalizing acc with
  | nil => simp [lastNodesWrite]
  | cons w rest ih =>
    rw [lastNodesWrite, List.foldl_cons, List.foldl_cons, ih, ih]
    cases h' : lastNodesWrite rest with
    | none => by_cases hb : w.1 = Buf.nodes <;> simp [hb]
    | some v => simp

theorem lastNodesWrite_append (w1 w2 : List Write) :
    lastNodesWrite (w1 ++ w2) = (lastNodesWrite w2).or (lastNodesWrite w1) := by
  rw [lastNodesWrite, List.foldl_append, lastNodesWrite_foldl]
  rfl

theorem getElem?_insertIdx_self_nat (items : List Nat) (idx x : Nat)
    (h : idx ≤ items.length) : (items.insertIdx idx x)[idx]? = some x := by
  have hlen : (items.insertIdx idx x).length = items.length + 1 :=
    List.length_insertIdx idx items h
  rw [List.getElem?_eq_getElem (by omega)]
  exact congrArg some (List.getElem_insertIdx_self items x idx h)

/-- The per-thread loop of the kernel computes exactly `followKernel`: the
thread walks through the *whole* direction sequence, one step per direction,
stopping early only when it is the first thread (`idx = 0`) and a step lands
on a goal node; the last value it stores to its `nodes` slot is that final
node. -/
theorem threadLoop_follow (graph : List (Nat × Nat)) (goals : List Nat)
    (idx : Nat) (hidx : idx < goals.length) :
    ∀ (rest : List Bool) (d : Bool) (items : List Nat) (node0 : Nat)
      (ws : List Write), items[idx]? = some node0 →
      threadLoop graph goals goals.length idx (d :: rest) items = some ws →
      ∃ v, followKernel graph goals (idx == 0) (d :: rest) node0 = some v ∧
        lastNodesWrite ws = some v := by
  intro rest
  induction rest with
  | nil =>
    intro d items node0 ws hitems hw
    unfold threadLoop at hw
    rw [if_pos hidx] at hw
    cases hgraph : graph[node0]? with
    | none => simp [hitems, hgraph] at hw
    | some p =>
      simp only [hitems, hgraph] at hw
      unfold followKernel
      rw [hgraph]
      dsimp only
      generalize hnd : (if d = true then p.1 else p.2) = node at hw ⊢
      split at hw
      · cases Option.some.inj hw
        rename_i hcond
        refine ⟨node, ?_, by simp [lastNodesWrite]⟩
        rw [if_pos (by rw [hcond.2, hcond.1]; rfl)]
      · rename_i hcond
        simp only [threadLoop] at hw
        cases Option.some.inj hw
        refine ⟨node, ?_, by simp [lastNodesWrite]⟩
        by_cases hbb : ((idx == 0) && goals.contains node) = true
        · rw [if_pos hbb]
        · rw [if_neg hbb]
          rfl
  | cons d2 rest2 ih =>
    intro d items node0 ws hitems hw
    unfold threadLoop at hw
    rw [if_pos hidx] at hw
    cases hgraph : graph[node0]? with
    | none => simp [hitems, hgraph] at hw
    | some p =>
      simp only [hitems, hgraph] at hw
      unfold followKernel
      rw [hgraph]
      dsimp only
      generalize hnd : (if d = true then p.1 else p.2) = node at hw ⊢
      split at hw
      · cases Option.some.inj hw
        rename_i hcond
        refine ⟨node, ?_, by simp [lastNodesWrite]⟩
        rw [if_pos (by rw [hcond.2, hcond.1]; rfl)]
      · rename_i hcond
        cases hrec : threadLoop graph goals goals.length idx (d2 :: rest2)
            (items.insertIdx idx node) with
        | none =>
          simp only [hrec] at hw
          exact Option.noConfusion hw
        | some rest' =>
          simp only [hrec] at hw
          cases Option.some.inj hw
          have hlt : idx < items.length :=
            (List.getElem?_eq_some_iff.mp hitems).1
          have hins : (items.insertIdx idx node)[idx]? = some node :=
            getElem?_insertIdx_self_nat items idx node (Nat.le_of_lt hlt)
          obtain ⟨v, hf, hl⟩ := ih d2 (items.insertIdx idx node) node rest'
            hins hrec
          have hno : ¬(((idx == 0) && goals.contains node) = true) := by
            simp only [Bool.and_eq_true, beq_iff_eq]
            intro hc
            exact hcond ⟨hc.2, hc.1⟩
          refine ⟨v, ?_, ?_⟩
          · rw [if_neg hno]
            exact hf
          · rw [lastNodesWrite_append, hl]
            rfl

/-- C8 (amended): one device dispatch does *not* advance a walker by exactly
one direction step.  Instead, for every in-bounds walker, a dispatch walks it
through the whole direction sequence, one step per direction — except that
the first thread (walker 0) stops as soon as one of its steps lands on a goal
node (`followKernel` with the break flag `idx == 0`), and a walker whose
index fails the kernel's `idx < goals.len()` bound is not advanced at all.
The last node the thread stores is the walker's position after that walk,
and the thread always stores at least once.  (The original one-step claim is
refuted by `c8_counterexample`.) -/
theorem c8_dispatch_advances_through_sequence (graph : List (Nat × Nat))
    (start goals : List Nat) (d : Bool) (rest : List Bool) (idx : Nat)
    (ws : List Write) (h1 : idx < goals.length) (h2 : idx < start.length)
    (hw : threadWrites graph start goals (d :: rest) idx = some ws) :
    lastNodesWrite ws
        = followKernel graph goals (idx == 0) (d :: rest) (start.getD idx 0) ∧
      lastNodesWrite ws ≠ none := by
  have hitems : start[idx]? = some (start.getD idx 0) := by
    rw [List.getElem?_eq_getElem h2]
    simp [List.getD_eq_getElem?_getD, List.getElem?_eq_getElem h2]
  obtain ⟨v, hf, hl⟩ := threadLoop_follow graph goals idx h1 rest d start
    (start.getD idx 0) ws hitems hw
  refine ⟨hl.trans hf.symm, ?_⟩
  rw [hl]
  exact fun hc => Option.noConfusion hc

/-- C8 counterexample: one dispatch on the 3-node example moves the single
walker from node 0 to node 2 — two direction steps — although a single
direction step from node 0 reaches node 1: the dispatch did not advance the
walker by exactly one direction step. -/
theorem c8_counterexample :
    (graph_traversal 1 exGraph exStart exGoals [true, true]).1
        = some ([2], [1]) ∧
      walkPos exGraph [true, true] 0 1 = 1 ∧ (2 : Nat) ≠ 1 := by
  decide

/-- C8 witness: walker 1 (a non-first thread) of a two-walker dispatch is
advanced through both directions of the sequence. -/
theorem c8_dispatch_advances_through_sequence_witness :
    threadWrites [(1, 1), (2, 2), (0, 0)] [0, 0] [2, 5] [true, true] 1
        = some [(Buf.nodes, 1, 1), (Buf.steps, 1, 1),
                (Buf.nodes, 1, 2), (Buf.steps, 1, 1)] ∧
      lastNodesWrite [(Buf.nodes, 1, 1), (Buf.steps, 1, 1),
          (Buf.nodes, 1, 2), (Buf.steps, 1, 1)]
        = followKernel [(1, 1), (2, 2), (0, 0)] [2, 5] (1 == 0) [true, true]
            (([0, 0] : List Nat).getD 1 0) ∧
      lastNodesWrite [(Buf.nodes, 1, 1), (Buf.steps, 1, 1),
          (Buf.nodes, 1, 2), (Buf.steps, 1, 1)] ≠ none :=
  ⟨by decide,
   c8_dispatch_advances_through_sequence [(1, 1), (2, 2), (0, 0)] [0, 0]
     [2, 5] true [true] 1
     [(Buf.nodes, 1, 1), (Buf.steps, 1, 1), (Buf.nodes, 1, 2),
      (Buf.steps, 1, 1)] (by decide) (by decide) (by decide)⟩

/-! ## Correctness of the `add` driver -/

theorem getD_eq_getElem_of_lt {α : Type} (l : List α) (d : α) (i : Nat)
    (h : i < l.length) : l.getD i d = l[i] := by
  rw [List.getD_eq_getElem?_getD, List.getElem?_eq_getElem h]
  rfl

/-- Characterization of the `add` kernel's threads `0 … T-1` run over an
output buffer `c`: every thread with index below both `T` and the problem
size has stored its elementwise sum; all other slots keep their initial
contents. -/
theorem run_threads_add {α : Type} [Add α] [Zero α] (a b : List α)
    (hb : b.length = a.length) :
    ∀ (T : Nat) (c : List α), c.length = a.length →
      ∃ r, run_threads (add_kernel a b) c T = some r ∧ r.length = a.length ∧
        ∀ i, i < a.length →
          r.getD i 0 = if i < T then a.getD i 0 + b.getD i 0 else c.getD i 0 := by
  intro T
  induction T with
  | zero =>
    intro c hc
    exact ⟨c, rfl, hc, fun i hi => by simp⟩
  | succ T ih =>
    intro c hc
    obtain ⟨r, hr, hlen, hval⟩ := ih c hc
    by_cases hT : T < a.length
    · have hbT : b[T]? = some (b.getD T 0) := by
        rw [List.getD_eq_getElem?_getD, List.getElem?_eq_getElem (by omega)]
        rfl
      refine ⟨r.set T (a.get ⟨T, hT⟩ + b.getD T 0), ?_, by simp [hlen], ?_⟩
      · unfold run_threads
        simp only [hr]
        unfold add_kernel
        rw [dif_pos hT]
        simp only [hbT]
        rfl
      · intro i hi
        by_cases hiT : i = T
        · subst hiT
          rw [List.getD_eq_getElem?_getD,
            List.getElem?_set_self (by omega : i < r.length),
            Option.getD_some, if_pos (by omega),
            getD_eq_getElem_of_lt a 0 i hi]
          rfl
        · rw [List.getD_eq_getElem?_getD, List.getElem?_set_ne (fun h => hiT h.symm),
            ← List.getD_eq_getElem?_getD, hval i hi]
          by_cases hiT2 : i < T
          · rw [if_pos hiT2, if_pos (by omega)]
          · rw [if_neg hiT2, if_neg (by omega)]
    · refine ⟨r, ?_, hlen, ?_⟩
      · unfold run_threads
        simp only [hr]
        unfold add_kernel
        rw [dif_neg hT]
      · intro i hi
        rw [hval i hi, if_pos (by omega), if_pos (by omega)]

/-- C1 (amended): for equal-length inputs whose length keeps the `u32`
launch-configuration arithmetic from overflowing (`n + bs - 1 < 2^32`, with a
positive block size from the occupancy query), `add` succeeds and returns the
elementwise sums `output[i] = a[i] + b[i]`.  The element type abstracts the
device `f32` together with its addition.  (The unrestricted claim fails for
problem sizes that overflow the `u32` grid computation, leaving part of the
output uncovered: see `c1_counterexample`.) -/
theorem c1_add_correct {α : Type} [Add α] [Zero α] (bs : Nat) (a b : List α)
    (h1 : 1 ≤ bs) (h2 : a.length = b.length) (h3 : a.length + bs - 1 < U32) :
    (add bs a b).1 = Except.ok (List.zipWith (fun x y => x + y) a b) := by
  have hcov : a.length ≤ grid_size a.length bs * bs :=
    grid_size_covers _ bs h1 h3
  obtain ⟨r, hr, hlen, hval⟩ := run_threads_add a b h2.symm
    (grid_size a.length bs * bs) (List.replicate a.length 0)
    (List.length_replicate _ _)
  unfold add
  rw [if_neg (fun hne => hne h2)]
  simp only [hr]
  congr 1
  apply List.ext_getElem?
  intro n
  by_cases hn : n < a.length
  · rw [List.getElem?_eq_getElem (show n < r.length by omega),
      List.getElem?_zipWith, List.getElem?_eq_getElem hn,
      List.getElem?_eq_getElem (show n < b.length by omega)]
    have hv := hval n hn
    rw [if_pos (by omega)] at hv
    rw [List.getD_eq_getElem?_getD, List.getElem?_eq_getElem
        (show n < r.length by omega), List.getD_eq_getElem?_getD,
      List.getElem?_eq_getElem hn, List.getD_eq_getElem?_getD,
      List.getElem?_eq_getElem (show n < b.length by omega)] at hv
    exact congrArg some hv
  · rw [List.getElem?_eq_none (show r.length ≤ n by omega),
      List.getElem?_eq_none]
    rw [List.length_zipWith]
    omega

/-- C1 witness: the spec's scenario `a = [2.0]`, `b = [3.0]` yields
`output = [5.0]` (the values are exactly representable; `ℚ` instantiates the
abstracted element type). -/
theorem c1_add_correct_witness :
    (add 32 [(2 : ℚ)] [3]).1 = Except.ok [5] := by
  have h := c1_add_correct 32 [(2 : ℚ)] [3] (by norm_num) (by norm_num)
    (by norm_num [U32])
  rw [h]
  norm_num

/-- A `2^32`-element input: its `usize` length cast to `u32` wraps to `0`. -/
def bigN : Nat := 2 ^ 32

def bigA : List ℚ := List.replicate bigN 1

/-- C1 counterexample: for two `2^32`-element inputs of `1.0`s (with block
size 1024) the wrapped `u32` grid computation yields `grid_size = 0`, so the
kernel launch covers no elements at all: `add` "succeeds" but returns the
untouched all-zero output buffer, and `output[0] = 0 ≠ 1 + 1 = a[0] + b[0]` —
the claim is false for unrestricted lengths.  (The embedding lets a
zero-block launch run zero threads; a real device would instead reject the
zero grid, making `add` fail — under either semantics the claimed
"succeeds with `output[i] = a[i] + b[i]`" is false at this input.) -/
theorem c1_counterexample :
    (add 1024 bigA bigA).1 = Except.ok (List.replicate bigN (0 : ℚ)) ∧
      (List.replicate bigN (0 : ℚ)).getD 0 0 = 0 ∧
      bigA.getD 0 0 + bigA.getD 0 0 = 2 ∧ (0 : ℚ) ≠ 2 := by
  have hlen : bigA.length = bigN := List.length_replicate _ _
  have hg : grid_size bigN 1024 * 1024 = 0 := by norm_num [grid_size, U32, bigN]
  refine ⟨?_, ?_, ?_, by norm_num⟩
  · unfold add
    rw [if_neg (by simp)]
    rw [hlen, hg]
    rfl
  · rw [List.getD_eq_getElem?_getD,
      List.getElem?_replicate_of_lt (by norm_num [bigN])]
    rfl
  · rw [show bigA.getD 0 0 = 1 from by
      rw [bigA, List.getD_eq_getElem?_getD,
        List.getElem?_replicate_of_lt (by norm_num [bigN])]
      rfl]
    norm_num

end AdventOfCuda
